import Mathlib

/-!
Verification of the TYPOGRAPHY_ANALYZER style audit engine.

The definitions below are a shallow embedding of the color model, background
resolver, contrast evaluator, color adjustment solver and style fingerprint
collector found in src/UI/Accessibility.Contrast.Analyzer.js and src/code.js.
JavaScript numbers that only ever undergo exact rational arithmetic are
modelled as rationals; the relative-luminance computation uses a real-valued
power and is modelled over the reals.  A JavaScript value that may be NaN is
modelled as an `Option` (with `none` standing for NaN), and the NaN/Infinity
propagation of a division is modelled explicitly by `JSNumber`.
-/

namespace TypographyAnalyzer

/-- Color record `{r, g, b, a}` as produced by `parseColor`:
channels 0-255, alpha 0-1 (ranges are invariants of well-formed CSS input,
not enforced by the record itself, just as in the JavaScript object). -/
structure Color where
  r : ℚ
  g : ℚ
  b : ℚ
  a : ℚ
  deriving DecidableEq, Repr

/-- The documented domain of a parsed color: channels within 0-255. -/
def ColorInRange (c : Color) : Prop :=
  0 ≤ c.r ∧ c.r ≤ 255 ∧ 0 ≤ c.g ∧ c.g ≤ 255 ∧ 0 ≤ c.b ∧ c.b ≤ 255

instance (c : Color) : Decidable (ColorInRange c) := by
  unfold ColorInRange; infer_instance

/-- Channels that are mathematical integers (JavaScript numbers with no
fractional part), as produced for computed-style colors. -/
def IntegerChannels (c : Color) : Prop :=
  c.r.den = 1 ∧ c.g.den = 1 ∧ c.b.den = 1

instance (c : Color) : Decidable (IntegerChannels c) := by
  unfold IntegerChannels; infer_instance

/-- JavaScript `Math.round` on an exact rational: round half toward
positive infinity, i.e. `floor (x + 1/2)`. -/
def mathRound (q : ℚ) : ℤ := ⌊q + 1 / 2⌋

/-- `blendColors(foreground, background)` from
src/UI/Accessibility.Contrast.Analyzer.js lines 167-177: per-channel
`Math.round(fg * a + bg * (1 - a))`, alpha set to 1. -/
def blendColors (foreground background : Color) : Color :=
  let alpha := foreground.a
  let invAlpha := 1 - alpha
  { r := (mathRound (foreground.r * alpha + background.r * invAlpha) : ℚ)
    g := (mathRound (foreground.g * alpha + background.g * invAlpha) : ℚ)
    b := (mathRound (foreground.b * alpha + background.b * invAlpha) : ℚ)
    a := 1 }

/-- One node of the ancestor chain seen by the background resolver: the
result of `parseColor(getComputedStyle(node).backgroundColor)` (`none` when
parsing fails) and whether the node is `document.body` (the loop's stopping
sentinel). -/
structure DomNode where
  bg : Option Color
  isBody : Bool
  deriving DecidableEq, Repr

/-- `getEffectiveBackgroundColor(element)` from
src/UI/Accessibility.Contrast.Analyzer.js lines 134-164, with the element
and its ancestors listed bottom-up.  The JavaScript `while` loop runs while
`current && current !== document.body`; an empty list is a null parent, and
a node with `isBody = true` ends the walk exactly as the loop condition
does.  The recursive call on `current.parentElement` for a translucent
background is the recursion on the tail. -/
def getEffectiveBackgroundColor : List DomNode → Color
  | [] => { r := 255, g := 255, b := 255, a := 1 }
  | n :: rest =>
    if n.isBody then { r := 255, g := 255, b := 255, a := 1 }
    else
      match n.bg with
      | some bgColor =>
        if 0 < bgColor.a then
          if bgColor.a = 1 then bgColor
          else blendColors bgColor (getEffectiveBackgroundColor rest)
        else getEffectiveBackgroundColor rest
      | none => getEffectiveBackgroundColor rest

/-- A background contribution the resolver skips over: an unparseable color
or one with alpha ≤ 0. -/
def transparentBg : Option Color → Bool
  | none => true
  | some c => decide (c.a ≤ 0)

/-- The claim's notion of the nearest ancestor whose parsed background has
alpha = 1, over the whole chain (document root included). -/
def nearestAlphaOneBg : List DomNode → Option Color
  | [] => none
  | n :: rest =>
    match n.bg with
    | some c => if c.a = 1 then some c else nearestAlphaOneBg rest
    | none => nearestAlphaOneBg rest

/-- The resolver's default result: fully covering white. -/
def whiteBg : Color := { r := 255, g := 255, b := 255, a := 1 }

/-- Inputs used by the counterexample to C1: a translucent element
background over an ancestor whose alpha is 1. -/
def c1ChainBlend : List DomNode :=
  [ { bg := some { r := 0, g := 0, b := 0, a := 1 / 2 }, isBody := false },
    { bg := some { r := 255, g := 255, b := 255, a := 1 }, isBody := false } ]

/-- Inputs used by the counterexample to C1: the only alpha-1 background
sits on `document.body` itself, where the walk already stops. -/
def c1ChainBody : List DomNode :=
  [ { bg := none, isBody := false },
    { bg := some { r := 0, g := 0, b := 255, a := 1 }, isBody := true } ]

/-! ### Relative luminance and contrast (Color Model / Contrast Evaluator) -/

/-- The per-channel ternary of `getRelativeLuminance`
(src/UI/Accessibility.Contrast.Analyzer.js lines 228-230), written once
here where the source repeats it for each channel:
`c <= 0.03928 ? c / 12.92 : Math.pow((c + 0.055) / 1.055, 2.4)`. -/
noncomputable def gammaExpand (channel : ℝ) : ℝ :=
  if channel ≤ 0.03928 then channel / 12.92
  else ((channel + 0.055) / 1.055) ^ (2.4 : ℝ)

/-- `getRelativeLuminance(color)` from
src/UI/Accessibility.Contrast.Analyzer.js lines 223-233: per-channel sRGB
gamma expansion of the 0-1-normalized channels, then the WCAG weighted
sum. -/
noncomputable def getRelativeLuminance (color : Color) : ℝ :=
  0.2126 * gammaExpand ((color.r : ℝ) / 255) +
    0.7152 * gammaExpand ((color.g : ℝ) / 255) +
    0.0722 * gammaExpand ((color.b : ℝ) / 255)

/-- `calculateContrastRatio(color1, color2)` from
src/UI/Accessibility.Contrast.Analyzer.js lines 212-220. -/
noncomputable def calculateContrastRatio (color1 color2 : Color) : ℝ :=
  let l1 := getRelativeLuminance color1
  let l2 := getRelativeLuminance color2
  let lighter := max l1 l2
  let darker := min l1 l2
  (lighter + 0.05) / (darker + 0.05)

/-! ### Contrast requirements (Contrast Evaluator classification) -/

/-- `config.wcag.contrastRatios` / `config.wcag.textSizes` from
src/UI/Accessibility.Contrast.Analyzer.js lines 6-22. -/
def normalTextAA : ℚ := 4.5
def normalTextAAA : ℚ := 7.0
def largeTextAA : ℚ := 3.0
def largeTextAAA : ℚ := 4.5
def nonTextAA : ℚ := 3.0
def nonTextAAA : ℚ := 4.5
def textSizeLarge : ℚ := 18
def textSizeLargeWeightBold : ℚ := 14

/-- A computed `fontWeight` value as the code consumes it: either the
keyword string `bold` or a numeric weight (`parseInt` of the string). -/
inductive FontWeight where
  | bold
  | numeric (n : ℤ)
  deriving DecidableEq, Repr

/-- `fontWeight === 'bold' || parseInt(fontWeight) >= 700` from
src/UI/Accessibility.Contrast.Analyzer.js line 246. -/
def fontWeightHeavy : FontWeight → Bool
  | .bold => true
  | .numeric n => decide (700 ≤ n)

/-- The parts of a DOM element that `getContrastRequirements` inspects:
`tagName` and the `role` attribute (`none` when absent). -/
structure DomElement where
  tagName : String
  role : Option String
  deriving DecidableEq, Repr

/-- `element.hasAttribute('role') && roles.includes(element.getAttribute('role'))`. -/
def roleIn (element : DomElement) (roles : List String) : Bool :=
  match element.role with
  | some r => roles.contains r
  | none => false

/-- The record returned by `getContrastRequirements`. -/
structure ContrastRequirement where
  reqType : String
  aa : ℚ
  aaa : ℚ
  deriving DecidableEq, Repr

/-- `getFontSizeInPt(computedStyle)` from
src/UI/Accessibility.Contrast.Analyzer.js lines 236-240, applied to the
already-parsed pixel size. -/
def getFontSizeInPt (fontSizePx : ℚ) : ℚ := fontSizePx * 0.75

/-- `getContrastRequirements(fontSize, fontWeight, element)` from
src/UI/Accessibility.Contrast.Analyzer.js lines 243-273 (`fontSize` is in
points). -/
def getContrastRequirements (fontSize : ℚ) (fontWeight : FontWeight)
    (element : DomElement) : ContrastRequirement :=
  let isLargeText : Bool :=
    decide (textSizeLarge ≤ fontSize) ||
      (decide (textSizeLargeWeightBold ≤ fontSize) && fontWeightHeavy fontWeight)
  let isNonText : Bool :=
    (element.tagName == "BUTTON") || roleIn element ["button", "tab", "menuitem"]
  if isNonText then
    { reqType := "non-text", aa := nonTextAA, aaa := nonTextAAA }
  else if isLargeText then
    { reqType := "large-text", aa := largeTextAA, aaa := largeTextAAA }
  else
    { reqType := "normal-text", aa := normalTextAA, aaa := normalTextAAA }

open Classical in
/-- The classification exactly as the specification words it (px→pt by
multiplying by 0.75; large text iff pt ≥ 18 or pt ≥ 14 with a bold/≥700
weight; a button-like role forces the non-text requirement), to be compared
with the implementation. -/
noncomputable def contrastRequirementSpec (fontSizePx : ℚ) (fontWeight : FontWeight)
    (element : DomElement) : ContrastRequirement :=
  let pt := fontSizePx * 0.75
  if element.tagName = "BUTTON" ∨
      (∃ r, element.role = some r ∧ (r = "button" ∨ r = "tab" ∨ r = "menuitem")) then
    { reqType := "non-text", aa := 3.0, aaa := 4.5 }
  else if 18 ≤ pt ∨
      (14 ≤ pt ∧ (fontWeight = .bold ∨ ∃ n, fontWeight = .numeric n ∧ 700 ≤ n)) then
    { reqType := "large-text", aa := 3.0, aaa := 4.5 }
  else
    { reqType := "normal-text", aa := 4.5, aaa := 7.0 }

/-! ### Issue severities (Issue Synthesizer, contrast rule) -/

inductive Severity where
  | critical
  | warning
  | info
  deriving DecidableEq, Repr

/-- The contrast branch of the issue synthesizer: `analyzeColorContrast`
(src/UI/Accessibility.Contrast.Analyzer.js lines 116-130) creates an issue
only when `!passAA || !passAAA`, and `addContrastIssue` (lines 1023-1032)
sets `severity = !passAA ? 'critical' : 'warning'`.  `passAA`/`passAAA`
come from `checkWCAGCompliance` (lines 276-283). -/
noncomputable def contrastIssueSeverity (contrastRatio : ℝ)
    (requirements : ContrastRequirement) : Option Severity :=
  let passAA : Bool := decide ((requirements.aa : ℝ) ≤ contrastRatio)
  let passAAA : Bool := decide ((requirements.aaa : ℝ) ≤ contrastRatio)
  if !passAA || !passAAA then some (if !passAA then .critical else .warning)
  else none

/-! ### Color adjustment solver -/

inductive Direction where
  | darken
  | lighten
  deriving DecidableEq, Repr

/-- One loop body of `adjustColorForContrast`
(src/UI/Accessibility.Contrast.Analyzer.js lines 1221-1234): shift each
channel by the signed step (−10 for darken, +10 for lighten), with
`Math.max(0, ·)` when darkening and `Math.min(255, ·)` when lightening;
alpha is untouched. -/
def stepColor (direction : Direction) (c : Color) : Color :=
  match direction with
  | .darken =>
    { r := max 0 (c.r - 10), g := max 0 (c.g - 10), b := max 0 (c.b - 10), a := c.a }
  | .lighten =>
    { r := min 255 (c.r + 10), g := min 255 (c.g + 10), b := min 255 (c.b + 10), a := c.a }

/-- `maxIterations` from src/UI/Accessibility.Contrast.Analyzer.js line 1219. -/
def maxIterations : ℕ := 25

/-- The `while (currentRatio < targetRatio && iterations < maxIterations)`
loop of `adjustColorForContrast`, with the remaining iteration budget made
explicit. -/
noncomputable def adjustColorLoop (bgColor : Color) (targetRatio : ℝ)
    (direction : Direction) : ℕ → Color → Color
  | 0, c => c
  | Nat.succ fuel, c =>
    if calculateContrastRatio c bgColor < targetRatio then
      adjustColorLoop bgColor targetRatio direction fuel (stepColor direction c)
    else c

/-- `adjustColorForContrast(color, bgColor, targetRatio, direction)` from
src/UI/Accessibility.Contrast.Analyzer.js lines 1211-1237. -/
noncomputable def adjustColorForContrast (color bgColor : Color)
    (targetRatio : ℝ) (direction : Direction) : Color :=
  adjustColorLoop bgColor targetRatio direction maxIterations color

/-- Clamp a channel to [0, 255], as the specification describes the
per-iteration update. -/
def clampChannel (x : ℚ) : ℚ := max 0 (min 255 x)

/-- The per-iteration update exactly as the specification words it: shift
every channel by 10 toward the direction and clamp to [0, 255]. -/
def stepColorSpec (direction : Direction) (c : Color) : Color :=
  match direction with
  | .darken =>
    { r := clampChannel (c.r - 10), g := clampChannel (c.g - 10),
      b := clampChannel (c.b - 10), a := c.a }
  | .lighten =>
    { r := clampChannel (c.r + 10), g := clampChannel (c.g + 10),
      b := clampChannel (c.b + 10), a := c.a }

/-! ### Style fingerprint collector (src/code.js) -/

/-- The four computed properties hashed into a typography fingerprint
(src/code.js lines 31-44). -/
structure FontMetrics where
  fontFamily : String
  fontSize : String
  fontWeight : String
  lineHeight : String
  deriving DecidableEq, Repr

/-- The map key from src/code.js line 44:
the four fields joined with `|`. -/
def fingerprintKey (m : FontMetrics) : String :=
  m.fontFamily ++ "|" ++ m.fontSize ++ "|" ++ m.fontWeight ++ "|" ++ m.lineHeight

/-- One `fontMap` update from src/code.js lines 46-56: create the bucket
with count 0 if the key is new, then increment its count.  Buckets are kept
in insertion order; only the per-bucket count matters here. -/
def insertFontKey (fontMap : List (String × ℕ)) (key : String) : List (String × ℕ) :=
  if fontMap.any (fun p => p.1 == key) then
    fontMap.map (fun p => if p.1 == key then (p.1, p.2 + 1) else p)
  else
    fontMap ++ [(key, 1)]

/-- `collectTypographyData` from src/code.js lines 23-58, restricted to the
bucket structure it builds: fold every collected element's fingerprint into
the font map. -/
def collectTypographyData (elems : List FontMetrics) : List (String × ℕ) :=
  elems.foldl (fun fontMap m => insertFontKey fontMap (fingerprintKey m)) []

/-- `config.redundancyThreshold` from src/code.js line 11. -/
def redundancyThreshold : ℕ := 1

/-- The redundancy rule of `analyzeIssues` (src/code.js lines 202-219): a
bucket is reported as a `redundant-style` (severity `info`) violation when
`count <= redundancyThreshold`. -/
def redundantStyleReported (count : ℕ) : Bool :=
  decide (count ≤ redundancyThreshold)

/-- A string with no `|` character, which is what every realistic computed
`fontSize`/`fontWeight`/`lineHeight` value is. -/
def pipeFree (s : String) : Prop := '|' ∉ s.data

instance (s : String) : Decidable (pipeFree s) := by
  unfold pipeFree; infer_instance

/-- Inputs used by the counterexample to C7: two different metric tuples
whose `|`-joined keys coincide. -/
def fmPipeA : FontMetrics :=
  { fontFamily := "a|b", fontSize := "c", fontWeight := "w", lineHeight := "l" }

def fmPipeB : FontMetrics :=
  { fontFamily := "a", fontSize := "b|c", fontWeight := "w", lineHeight := "l" }

/-- A concrete pipe-free metric tuple used to instantiate the bucket
theorem. -/
def fmArial : FontMetrics :=
  { fontFamily := "Arial", fontSize := "16px", fontWeight := "400", lineHeight := "24px" }

/-! ### Line-height analysis (src/code.js) and JavaScript numerics -/

/-- The result of a JavaScript division whose operands may be NaN
(`parseFloat` failures are the `none` operands). -/
inductive JSNumber where
  | nan
  | posInf
  | negInf
  | fin (q : ℚ)
  deriving DecidableEq, Repr

/-- JavaScript `num / den` where either operand may be NaN (`none`). -/
def jsDiv : Option ℚ → Option ℚ → JSNumber
  | some a, some b =>
    if b = 0 then (if a = 0 then .nan else if 0 < a then .posInf else .negInf)
    else .fin (a / b)
  | _, _ => .nan

/-- JavaScript `x < q` for a possibly-NaN/infinite `x` and a finite `q`:
any comparison with NaN is false. -/
def JSNumber.ltRat : JSNumber → ℚ → Bool
  | .nan, _ => false
  | .posInf, _ => false
  | .negInf, _ => true
  | .fin a, q => decide (a < q)

/-- JavaScript `x > q` for a possibly-NaN/infinite `x` and a finite `q`. -/
def JSNumber.gtRat : JSNumber → ℚ → Bool
  | .nan, _ => false
  | .posInf, _ => true
  | .negInf, _ => false
  | .fin a, q => decide (q < a)

/-- `config.minLineHeightRatio` / `config.maxLineHeightRatio` from
src/code.js lines 7-8. -/
def minLineHeightRatio : ℚ := 1.2
def maxLineHeightRatio : ℚ := 1.8

inductive LineHeightIssue where
  | tooSmall
  | tooLarge
  deriving DecidableEq, Repr

/-- The line-height rule of `analyzeIssues` (src/code.js lines 149-181):
`lineHeightRatio = parseFloat(lineHeight) / parseFloat(fontSize)`, report
`line-height-too-small` (critical) when the ratio is below the minimum,
else `line-height-too-large` (warning) when above the maximum.  A
`parseFloat` that yields NaN is a `none` operand. -/
def analyzeLineHeightIssue (fontSizeNum lineHeightNum : Option ℚ) :
    Option LineHeightIssue :=
  let lineHeightRat := jsDiv lineHeightNum fontSizeNum
  if lineHeightRat.ltRat minLineHeightRatio then some .tooSmall
  else if lineHeightRat.gtRat maxLineHeightRatio then some .tooLarge
  else none

/-! ## Theorems -/

/-! ### Supporting lemmas -/

lemma gammaExpand_nonneg (x : ℝ) (hx : 0 ≤ x) : 0 ≤ gammaExpand x := by
  unfold gammaExpand
  split_ifs
  · positivity
  · apply Real.rpow_nonneg
    apply div_nonneg _ (by norm_num)
    linarith

lemma gammaExpand_zero : gammaExpand 0 = 0 := by
  unfold gammaExpand
  rw [if_pos (by norm_num)]
  norm_num

lemma gammaExpand_one : gammaExpand 1 = 1 := by
  unfold gammaExpand
  rw [if_neg (by norm_num)]
  rw [show ((1 : ℝ) + 0.055) / 1.055 = 1 by norm_num, Real.one_rpow]

lemma getRelativeLuminance_nonneg (c : Color) (h : ColorInRange c) :
    0 ≤ getRelativeLuminance c := by
  obtain ⟨hr, -, hg, -, hb, -⟩ := h
  have hr' : (0 : ℝ) ≤ (c.r : ℝ) / 255 := by
    apply div_nonneg _ (by norm_num); exact_mod_cast hr
  have hg' : (0 : ℝ) ≤ (c.g : ℝ) / 255 := by
    apply div_nonneg _ (by norm_num); exact_mod_cast hg
  have hb' : (0 : ℝ) ≤ (c.b : ℝ) / 255 := by
    apply div_nonneg _ (by norm_num); exact_mod_cast hb
  have h1 := gammaExpand_nonneg _ hr'
  have h2 := gammaExpand_nonneg _ hg'
  have h3 := gammaExpand_nonneg _ hb'
  unfold getRelativeLuminance
  nlinarith

lemma getRelativeLuminance_black :
    getRelativeLuminance { r := 0, g := 0, b := 0, a := 1 } = 0 := by
  unfold getRelativeLuminance
  norm_num [gammaExpand_zero]

lemma getRelativeLuminance_white :
    getRelativeLuminance { r := 255, g := 255, b := 255, a := 1 } = 1 := by
  unfold getRelativeLuminance
  norm_num [gammaExpand_one]

lemma contrast_black_white :
    calculateContrastRatio { r := 0, g := 0, b := 0, a := 1 }
      { r := 255, g := 255, b := 255, a := 1 } = 21 := by
  unfold calculateContrastRatio
  rw [getRelativeLuminance_black, getRelativeLuminance_white]
  dsimp only
  rw [max_eq_right (by norm_num : (0:ℝ) ≤ 1), min_eq_left (by norm_num : (0:ℝ) ≤ 1)]
  norm_num

/-- C1 (amended): walking from the element upward, if every node before
some node `n` is below `document.body` and contributes no background
(unparseable or alpha ≤ 0), and `n` itself is below `document.body` with a
parsed background of alpha = 1, then the resolver returns exactly `n`'s
parsed color, never continuing past it.  (As originally stated the claim
fails: a translucent ancestor below the first alpha-1 ancestor makes the
resolver blend rather than return that ancestor's color, and the walk stops
at `document.body`, never consulting it or the document root.) -/
theorem effectiveBackground_first_alpha_one (l1 l2 : List DomNode) (c : Color)
    (hpre : ∀ n ∈ l1, n.isBody = false ∧ transparentBg n.bg = true)
    (hc : c.a = 1) :
    getEffectiveBackgroundColor (l1 ++ ({ bg := some c, isBody := false } : DomNode) :: l2) = c := by
  induction l1 with
  | nil =>
    simp [getEffectiveBackgroundColor, hc]
  | cons n l1' ih =>
    obtain ⟨hbody, htrans⟩ := hpre n (List.mem_cons_self n l1')
    have hrest : ∀ m ∈ l1', m.isBody = false ∧ transparentBg m.bg = true :=
      fun m hm => hpre m (List.mem_cons_of_mem n hm)
    rw [List.cons_append]
    cases hbg : n.bg with
    | none =>
      simp only [getEffectiveBackgroundColor, hbody, hbg]
      simpa using ih hrest
    | some col =>
      have hle : col.a ≤ 0 := by simpa [transparentBg, hbg] using htrans
      simp only [getEffectiveBackgroundColor, hbody, hbg]
      simp only [not_lt.mpr hle, if_false]
      simpa using ih hrest

/-- Witness for C1's amended theorem at a concrete chain. -/
theorem effectiveBackground_first_alpha_one_witness :
    (∀ n ∈ [({ bg := none, isBody := false } : DomNode)],
        n.isBody = false ∧ transparentBg n.bg = true) ∧
    ({ r := 7, g := 8, b := 9, a := 1 } : Color).a = 1 ∧
    getEffectiveBackgroundColor
        ([({ bg := none, isBody := false } : DomNode)] ++
          ({ bg := some { r := 7, g := 8, b := 9, a := 1 }, isBody := false } : DomNode) ::
            [({ bg := some whiteBg, isBody := true } : DomNode)]) =
      { r := 7, g := 8, b := 9, a := 1 } :=
  ⟨by decide, by decide,
    effectiveBackground_first_alpha_one _ _ _ (by decide) (by decide)⟩

/-- C1 counterexample: the element's own background is black at alpha 0.5
and the (only) ancestor with an alpha-1 parsed background is white, yet the
resolver returns the blend `{128,128,128,1}`, not white; moreover when the
only alpha-1 background sits on `document.body`, the resolver returns the
default white instead of it, so backgrounds from `document.body` up to the
document root are never returned. -/
theorem effectiveBackground_counterexample :
    nearestAlphaOneBg c1ChainBlend = some whiteBg ∧
    getEffectiveBackgroundColor c1ChainBlend ≠ whiteBg ∧
    getEffectiveBackgroundColor c1ChainBlend = { r := 128, g := 128, b := 128, a := 1 } ∧
    nearestAlphaOneBg c1ChainBody = some { r := 0, g := 0, b := 255, a := 1 } ∧
    getEffectiveBackgroundColor c1ChainBody = whiteBg := by
  have hblend : getEffectiveBackgroundColor c1ChainBlend =
      { r := 128, g := 128, b := 128, a := 1 } := by
    show getEffectiveBackgroundColor c1ChainBlend = _
    rw [c1ChainBlend]
    norm_num [getEffectiveBackgroundColor, blendColors, mathRound]
  refine ⟨?_, ?_, hblend, ?_, ?_⟩
  · rw [c1ChainBlend]
    norm_num [nearestAlphaOneBg, whiteBg]
  · rw [hblend]
    intro h
    have : (128 : ℚ) = 255 := congrArg Color.r h
    norm_num at this
  · rw [c1ChainBody]
    norm_num [nearestAlphaOneBg]
  · rw [c1ChainBody]
    norm_num [getEffectiveBackgroundColor, whiteBg]

/-- C4: the background resolver always returns an alpha-1 color, and when
no node of the walk contributes a background with positive alpha before the
walk ends (every node is `document.body` or transparent/unparseable), it
returns the default white `{255,255,255,1}`. -/
theorem effectiveBackground_default_white (chain : List DomNode) :
    (getEffectiveBackgroundColor chain).a = 1 ∧
    ((∀ n ∈ chain, n.isBody = true ∨ transparentBg n.bg = true) →
      getEffectiveBackgroundColor chain = whiteBg) := by
  induction chain with
  | nil => exact ⟨rfl, fun _ => rfl⟩
  | cons n rest ih =>
    constructor
    · cases hb : n.isBody with
      | true => simp [getEffectiveBackgroundColor, hb, whiteBg]
      | false =>
        cases hbg : n.bg with
        | none =>
          simp only [getEffectiveBackgroundColor, hb, hbg]
          simpa using ih.1
        | some col =>
          by_cases h1 : 0 < col.a
          · by_cases h2 : col.a = 1
            · simp [getEffectiveBackgroundColor, hb, hbg, h1, h2]
            · simp [getEffectiveBackgroundColor, hb, hbg, h1, h2, blendColors]
          · simp only [getEffectiveBackgroundColor, hb, hbg, h1, if_false]
            simpa using ih.1
    · intro h
      cases hb : n.isBody with
      | true => simp [getEffectiveBackgroundColor, hb, whiteBg]
      | false =>
        have htrans : transparentBg n.bg = true := by
          rcases h n (List.mem_cons_self n rest) with h' | h'
          · rw [hb] at h'; exact absurd h' (by simp)
          · exact h'
        have hrest := ih.2 fun m hm => h m (List.mem_cons_of_mem n hm)
        cases hbg : n.bg with
        | none =>
          simp only [getEffectiveBackgroundColor, hb, hbg]
          simpa using hrest
        | some col =>
          have hle : col.a ≤ 0 := by simpa [transparentBg, hbg] using htrans
          simp only [getEffectiveBackgroundColor, hb, hbg, not_lt.mpr hle, if_false]
          simpa using hrest

/-- Witness for C4 at a concrete chain with no usable background. -/
theorem effectiveBackground_default_white_witness :
    (getEffectiveBackgroundColor [({ bg := none, isBody := false } : DomNode)]).a = 1 ∧
    getEffectiveBackgroundColor [({ bg := none, isBody := false } : DomNode)] = whiteBg :=
  ⟨(effectiveBackground_default_white _).1,
    (effectiveBackground_default_white _).2 (by decide)⟩

/-- C10: when the computed `lineHeight` does not parse to a number
(`parseFloat` yields NaN, e.g. for the computed value `normal`), the
line-height ratio is NaN, both threshold comparisons are false, and the
analyzer emits neither a `line-height-too-small` nor a
`line-height-too-large` issue, whatever the font size. -/
theorem lineHeight_nan_no_issue (fontSizeNum : Option ℚ) :
    analyzeLineHeightIssue fontSizeNum none = none := by
  cases fontSizeNum <;> rfl

open Classical in
/-- C2: composing the px→pt conversion (multiply by 0.75) with
`getContrastRequirements` yields exactly the specified classification:
button-like elements (tag `BUTTON` or role `button`/`tab`/`menuitem`) get
the non-text thresholds AA=3.0/AAA=4.5 regardless of size; otherwise the
element is large text iff pt ≥ 18 or (pt ≥ 14 and the weight is bold or
≥ 700), with thresholds AA=3.0/AAA=4.5; all remaining text gets
AA=4.5/AAA=7.0. -/
theorem getContrastRequirements_matches_spec (fontSizePx : ℚ) (w : FontWeight)
    (e : DomElement) :
    getContrastRequirements (getFontSizeInPt fontSizePx) w e =
      contrastRequirementSpec fontSizePx w e := by
  unfold getContrastRequirements contrastRequirementSpec getFontSizeInPt
  dsimp only
  have h1 : ((e.tagName == "BUTTON") || roleIn e ["button", "tab", "menuitem"]) = true ↔
      (e.tagName = "BUTTON" ∨
        ∃ r, e.role = some r ∧ (r = "button" ∨ r = "tab" ∨ r = "menuitem")) := by
    cases hr : e.role with
    | none => simp [roleIn, hr]
    | some r =>
      simp only [Bool.or_eq_true, beq_iff_eq, roleIn, hr, Option.some.injEq]
      constructor
      · rintro (h | h)
        · exact Or.inl h
        · refine Or.inr ⟨r, rfl, ?_⟩
          simpa using h
      · rintro (h | ⟨r', hr', h⟩)
        · exact Or.inl h
        · refine Or.inr ?_
          subst hr'
          simpa using h
  have h2 : (decide (textSizeLarge ≤ fontSizePx * 0.75) ||
        (decide (textSizeLargeWeightBold ≤ fontSizePx * 0.75) && fontWeightHeavy w)) = true ↔
      (18 ≤ fontSizePx * 0.75 ∨
        (14 ≤ fontSizePx * 0.75 ∧
          (w = .bold ∨ ∃ n, w = .numeric n ∧ 700 ≤ n))) := by
    cases w <;>
      simp [fontWeightHeavy, textSizeLarge, textSizeLargeWeightBold]
  apply if_congr h1 rfl
  apply if_congr h2 rfl rfl

/-- C3: the contrast ratio is `(max(L1,L2)+0.05)/(min(L1,L2)+0.05)` over
the sRGB relative luminances, it is at least 1 whenever the colors are in
the 0-255 channel range, and on black vs white it is exactly 21 (hence
within 1e-6 of 21.0). -/
theorem contrast_formula_and_bounds (c1 c2 : Color)
    (h1 : ColorInRange c1) (h2 : ColorInRange c2) :
    calculateContrastRatio c1 c2 =
      (max (getRelativeLuminance c1) (getRelativeLuminance c2) + 0.05) /
        (min (getRelativeLuminance c1) (getRelativeLuminance c2) + 0.05) ∧
    1 ≤ calculateContrastRatio c1 c2 ∧
    |calculateContrastRatio { r := 0, g := 0, b := 0, a := 1 }
        { r := 255, g := 255, b := 255, a := 1 } - 21| ≤ 1e-6 := by
  refine ⟨rfl, ?_, by rw [contrast_black_white]; norm_num⟩
  have hL1 := getRelativeLuminance_nonneg c1 h1
  have hL2 := getRelativeLuminance_nonneg c2 h2
  unfold calculateContrastRatio
  dsimp only
  have hmin : (0 : ℝ) < min (getRelativeLuminance c1) (getRelativeLuminance c2) + 0.05 := by
    have := le_min hL1 hL2
    linarith
  rw [le_div_iff₀ hmin, one_mul]
  have := min_le_max (a := getRelativeLuminance c1) (b := getRelativeLuminance c2)
  linarith

/-- Witness for C3 at black and white. -/
theorem contrast_formula_and_bounds_witness :
    ColorInRange { r := 0, g := 0, b := 0, a := 1 } ∧
    ColorInRange { r := 255, g := 255, b := 255, a := 1 } ∧
    1 ≤ calculateContrastRatio { r := 0, g := 0, b := 0, a := 1 }
        { r := 255, g := 255, b := 255, a := 1 } :=
  ⟨by decide, by decide,
    (contrast_formula_and_bounds _ _ (by decide) (by decide)).2.1⟩

/-- C9: the contrast ratio is symmetric in its two arguments, and on two
equal in-range colors it is exactly 1. -/
theorem contrast_symm_and_refl :
    (∀ c1 c2 : Color, calculateContrastRatio c1 c2 = calculateContrastRatio c2 c1) ∧
    (∀ c : Color, ColorInRange c → calculateContrastRatio c c = 1) := by
  constructor
  · intro c1 c2
    unfold calculateContrastRatio
    dsimp only
    rw [max_comm, min_comm]
  · intro c h
    have h0 := getRelativeLuminance_nonneg c h
    unfold calculateContrastRatio
    dsimp only
    rw [max_self, min_self, div_self (by linarith)]

/-- Witness for C9 at concrete colors. -/
theorem contrast_symm_and_refl_witness :
    calculateContrastRatio { r := 0, g := 0, b := 0, a := 1 }
        { r := 255, g := 255, b := 255, a := 1 } =
      calculateContrastRatio { r := 255, g := 255, b := 255, a := 1 }
        { r := 0, g := 0, b := 0, a := 1 } ∧
    ColorInRange { r := 0, g := 0, b := 0, a := 1 } ∧
    calculateContrastRatio { r := 0, g := 0, b := 0, a := 1 }
        { r := 0, g := 0, b := 0, a := 1 } = 1 :=
  ⟨contrast_symm_and_refl.1 _ _, by decide,
    contrast_symm_and_refl.2 _ (by decide)⟩

lemma getContrastRequirements_bounds (fontSize : ℚ) (w : FontWeight) (e : DomElement) :
    (getContrastRequirements fontSize w e).aa ≤ (getContrastRequirements fontSize w e).aaa ∧
    (getContrastRequirements fontSize w e).aaa ≤ 7 := by
  unfold getContrastRequirements
  dsimp only
  split_ifs <;>
    norm_num [nonTextAA, nonTextAAA, largeTextAA, largeTextAAA, normalTextAA, normalTextAAA]

/-- C6: for any requirement produced by the classifier, an element whose
contrast ratio fails AA gets a `critical` contrast issue, one that passes
AA but fails AAA gets a `warning`, and one that passes AAA produces no
contrast issue at all; in particular black text on a white background
(ratio 21) produces no issue. -/
theorem contrastIssueSeverity_spec (ratio : ℝ) (fontSize : ℚ) (w : FontWeight)
    (e : DomElement) :
    (ratio < ((getContrastRequirements fontSize w e).aa : ℝ) →
      contrastIssueSeverity ratio (getContrastRequirements fontSize w e) =
        some .critical) ∧
    (((getContrastRequirements fontSize w e).aa : ℝ) ≤ ratio →
      ratio < ((getContrastRequirements fontSize w e).aaa : ℝ) →
      contrastIssueSeverity ratio (getContrastRequirements fontSize w e) =
        some .warning) ∧
    (((getContrastRequirements fontSize w e).aaa : ℝ) ≤ ratio →
      contrastIssueSeverity ratio (getContrastRequirements fontSize w e) = none) ∧
    contrastIssueSeverity
      (calculateContrastRatio { r := 0, g := 0, b := 0, a := 1 }
        { r := 255, g := 255, b := 255, a := 1 })
      (getContrastRequirements fontSize w e) = none := by
  set req := getContrastRequirements fontSize w e with hreq
  obtain ⟨haaa, h7⟩ := getContrastRequirements_bounds fontSize w e
  rw [← hreq] at haaa h7
  have hnone : ∀ x : ℝ, (req.aaa : ℝ) ≤ x → contrastIssueSeverity x req = none := by
    intro x hx
    have hx' : (req.aa : ℝ) ≤ x := le_trans (by exact_mod_cast haaa) hx
    unfold contrastIssueSeverity
    dsimp only
    rw [decide_eq_true hx', decide_eq_true hx]
    simp
  refine ⟨?_, ?_, hnone ratio, ?_⟩
  · intro h
    unfold contrastIssueSeverity
    dsimp only
    rw [decide_eq_false (not_le.mpr h)]
    simp
  · intro h1 h2
    unfold contrastIssueSeverity
    dsimp only
    rw [decide_eq_true h1, decide_eq_false (not_le.mpr h2)]
    simp
  · apply hnone
    rw [contrast_black_white]
    have : (req.aaa : ℝ) ≤ 7 := by exact_mod_cast h7
    linarith

/-- Witness for C6: a failing-AA ratio on a normal-text element. -/
theorem contrastIssueSeverity_spec_witness :
    (0.5 : ℝ) <
      ((getContrastRequirements 12 (.numeric 400)
        { tagName := "P", role := none }).aa : ℝ) ∧
    contrastIssueSeverity 0.5
        (getContrastRequirements 12 (.numeric 400) { tagName := "P", role := none }) =
      some .critical := by
  have hreq : getContrastRequirements 12 (.numeric 400) { tagName := "P", role := none } =
      { reqType := "normal-text", aa := 4.5, aaa := 7.0 } := rfl
  have h : (0.5 : ℝ) <
      ((getContrastRequirements 12 (.numeric 400)
        { tagName := "P", role := none }).aa : ℝ) := by
    rw [hreq]
    norm_num
  exact ⟨h, (contrastIssueSeverity_spec 0.5 12 (.numeric 400) _).1 h⟩

/-! ### The color adjustment solver -/

lemma adjustColorLoop_spec (bgColor : Color) (targetRatio : ℝ) (direction : Direction) :
    ∀ (fuel : ℕ) (c : Color), ∃ n, n ≤ fuel ∧
      adjustColorLoop bgColor targetRatio direction fuel c =
        (stepColor direction)^[n] c ∧
      (∀ m, m < n →
        calculateContrastRatio ((stepColor direction)^[m] c) bgColor < targetRatio) ∧
      (n < fuel →
        targetRatio ≤ calculateContrastRatio ((stepColor direction)^[n] c) bgColor) := by
  intro fuel
  induction fuel with
  | zero =>
    intro c
    exact ⟨0, le_refl 0, rfl, fun m hm => absurd hm (Nat.not_lt_zero m),
      fun h => absurd h (lt_irrefl 0)⟩
  | succ fuel ih =>
    intro c
    by_cases h : calculateContrastRatio c bgColor < targetRatio
    · obtain ⟨n, hn, heq, hlt, hstop⟩ := ih (stepColor direction c)
      refine ⟨n + 1, Nat.succ_le_succ hn, ?_, ?_, ?_⟩
      · rw [show adjustColorLoop bgColor targetRatio direction (fuel + 1) c =
            adjustColorLoop bgColor targetRatio direction fuel (stepColor direction c) from
              by simp only [adjustColorLoop, if_pos h]]
        rw [heq, Function.iterate_succ_apply]
      · intro m hm
        cases m with
        | zero => simpa using h
        | succ k =>
          rw [Function.iterate_succ_apply]
          exact hlt k (Nat.lt_of_succ_lt_succ hm)
      · intro hcap
        rw [Function.iterate_succ_apply]
        exact hstop (Nat.lt_of_succ_lt_succ hcap)
    · refine ⟨0, Nat.zero_le _, ?_, fun m hm => absurd hm (Nat.not_lt_zero m),
        fun _ => not_lt.mp h⟩
      simp only [adjustColorLoop, if_neg h, Function.iterate_zero_apply]

lemma stepColor_in_range (direction : Direction) (c : Color) (h : ColorInRange c) :
    ColorInRange (stepColor direction c) := by
  obtain ⟨h1, h2, h3, h4, h5, h6⟩ := h
  cases direction with
  | darken =>
    exact ⟨le_max_left _ _, max_le (by norm_num) (by linarith),
      le_max_left _ _, max_le (by norm_num) (by linarith),
      le_max_left _ _, max_le (by norm_num) (by linarith)⟩
  | lighten =>
    exact ⟨le_min (by norm_num) (by linarith), min_le_left _ _,
      le_min (by norm_num) (by linarith), min_le_left _ _,
      le_min (by norm_num) (by linarith), min_le_left _ _⟩

lemma stepColor_iterate_in_range (direction : Direction) (c : Color)
    (h : ColorInRange c) (m : ℕ) : ColorInRange ((stepColor direction)^[m] c) := by
  induction m with
  | zero => simpa using h
  | succ k ih =>
    rw [Function.iterate_succ_apply']
    exact stepColor_in_range direction _ ih

lemma stepColor_eq_spec (direction : Direction) (c : Color) (h : ColorInRange c) :
    stepColor direction c = stepColorSpec direction c := by
  obtain ⟨h1, h2, h3, h4, h5, h6⟩ := h
  cases direction with
  | darken =>
    unfold stepColor stepColorSpec clampChannel
    rw [min_eq_right (by linarith : c.r - 10 ≤ 255),
      min_eq_right (by linarith : c.g - 10 ≤ 255),
      min_eq_right (by linarith : c.b - 10 ≤ 255)]
  | lighten =>
    unfold stepColor stepColorSpec clampChannel
    rw [max_eq_right (le_min (by norm_num) (by linarith) : (0:ℚ) ≤ min 255 (c.r + 10)),
      max_eq_right (le_min (by norm_num) (by linarith) : (0:ℚ) ≤ min 255 (c.g + 10)),
      max_eq_right (le_min (by norm_num) (by linarith) : (0:ℚ) ≤ min 255 (c.b + 10))]

/-- C5: the solver always returns after some number `n ≤ 25` of iterations;
it stops at the first iterate whose contrast ratio reaches the target (all
earlier iterates are below the target), stops only because of the cap
otherwise (if `n < 25` the final ratio meets the target — so a returned
color need not meet it when the cap hit), and each iteration moves every
channel by 10 in the chosen direction, clamped to [0, 255]. -/
theorem adjustColorForContrast_spec (color bgColor : Color) (targetRatio : ℝ)
    (direction : Direction) (h : ColorInRange color) :
    ∃ n, n ≤ maxIterations ∧
      adjustColorForContrast color bgColor targetRatio direction =
        (stepColor direction)^[n] color ∧
      (∀ m, m < n →
        calculateContrastRatio ((stepColor direction)^[m] color) bgColor < targetRatio) ∧
      (n < maxIterations →
        targetRatio ≤ calculateContrastRatio ((stepColor direction)^[n] color) bgColor) ∧
      (∀ m, (stepColor direction)^[m + 1] color =
        stepColorSpec direction ((stepColor direction)^[m] color)) := by
  obtain ⟨n, hn, heq, hlt, hstop⟩ :=
    adjustColorLoop_spec bgColor targetRatio direction maxIterations color
  refine ⟨n, hn, heq, hlt, hstop, fun m => ?_⟩
  rw [Function.iterate_succ_apply']
  exact stepColor_eq_spec direction _ (stepColor_iterate_in_range direction color h m)

/-- Witness for C5 at black text against a white background. -/
theorem adjustColorForContrast_spec_witness :
    ColorInRange { r := 0, g := 0, b := 0, a := 1 } ∧
    ∃ n, n ≤ maxIterations ∧
      adjustColorForContrast { r := 0, g := 0, b := 0, a := 1 } whiteBg 4.5 .lighten =
        (stepColor .lighten)^[n] { r := 0, g := 0, b := 0, a := 1 } ∧
      (∀ m, m < n →
        calculateContrastRatio
          ((stepColor .lighten)^[m] { r := 0, g := 0, b := 0, a := 1 }) whiteBg < 4.5) ∧
      (n < maxIterations →
        (4.5 : ℝ) ≤ calculateContrastRatio
          ((stepColor .lighten)^[n] { r := 0, g := 0, b := 0, a := 1 }) whiteBg) ∧
      (∀ m, (stepColor .lighten)^[m + 1] { r := 0, g := 0, b := 0, a := 1 } =
        stepColorSpec .lighten ((stepColor .lighten)^[m] { r := 0, g := 0, b := 0, a := 1 })) :=
  ⟨by decide, adjustColorForContrast_spec _ _ _ _ (by decide)⟩

/-! ### Blending -/

lemma mathRound_of_int (q : ℚ) (h : q.den = 1) : (mathRound q : ℚ) = q := by
  obtain ⟨n, rfl⟩ : ∃ n : ℤ, (n : ℚ) = q := ⟨q.num, (Rat.den_eq_one_iff q).mp h⟩
  unfold mathRound
  rw [add_comm, Int.floor_add_int, show ⌊(1 : ℚ) / 2⌋ = 0 by norm_num]
  norm_num

lemma mathRound_close (q : ℚ) : |(mathRound q : ℚ) - q| ≤ 1 / 2 := by
  unfold mathRound
  rw [abs_le]
  constructor
  · have := Int.lt_floor_add_one (q + 1 / 2)
    linarith
  · have := Int.floor_le (q + 1 / 2)
    linarith

/-- C8: on a foreground with alpha 1 and integer in-range channels,
blending is the identity in the foreground (the alpha-1 short circuit); in
general the result's alpha is forced to 1 and each channel is the standard
"over" composite `fg·a + bg·(1−a)` up to the integer rounding the code
applies. -/
theorem blendColors_spec (foreground background : Color) :
    ((foreground.a = 1 ∧ IntegerChannels foreground ∧ ColorInRange foreground) →
      blendColors foreground background = foreground) ∧
    (blendColors foreground background).a = 1 ∧
    |(blendColors foreground background).r -
        (foreground.r * foreground.a + background.r * (1 - foreground.a))| ≤ 1 / 2 ∧
    |(blendColors foreground background).g -
        (foreground.g * foreground.a + background.g * (1 - foreground.a))| ≤ 1 / 2 ∧
    |(blendColors foreground background).b -
        (foreground.b * foreground.a + background.b * (1 - foreground.a))| ≤ 1 / 2 := by
  refine ⟨?_, rfl, mathRound_close _, mathRound_close _, mathRound_close _⟩
  rintro ⟨ha, ⟨hr, hg, hb⟩, -⟩
  obtain ⟨r, g, b, a⟩ := foreground
  dsimp only at ha hr hg hb ⊢
  subst ha
  unfold blendColors
  dsimp only
  rw [show r * 1 + background.r * (1 - 1) = r by ring,
    show g * 1 + background.g * (1 - 1) = g by ring,
    show b * 1 + background.b * (1 - 1) = b by ring,
    mathRound_of_int r hr, mathRound_of_int g hg, mathRound_of_int b hb]

/-- Witness for C8 at a concrete alpha-1 color. -/
theorem blendColors_spec_witness :
    (({ r := 10, g := 20, b := 30, a := 1 } : Color).a = 1 ∧
      IntegerChannels { r := 10, g := 20, b := 30, a := 1 } ∧
      ColorInRange { r := 10, g := 20, b := 30, a := 1 }) ∧
    blendColors { r := 10, g := 20, b := 30, a := 1 } { r := 1, g := 2, b := 3, a := 1 } =
      { r := 10, g := 20, b := 30, a := 1 } :=
  ⟨by decide, (blendColors_spec _ _).1 (by decide)⟩

/-! ### Fingerprint buckets -/

lemma sep_split {x y u v : List Char} (hx : '|' ∉ x) (hy : '|' ∉ y)
    (h : x ++ '|' :: u = y ++ '|' :: v) : x = y ∧ u = v := by
  induction x generalizing y with
  | nil =>
    cases y with
    | nil => simpa using h
    | cons b ys =>
      simp only [List.nil_append, List.cons_append, List.cons.injEq] at h
      cases h.1
      exact absurd (List.mem_cons_self _ _) hy
  | cons a xs ih =>
    cases y with
    | nil =>
      simp only [List.nil_append, List.cons_append, List.cons.injEq] at h
      cases h.1.symm
      exact absurd (List.mem_cons_self _ _) hx
    | cons b ys =>
      simp only [List.cons_append, List.cons.injEq] at h
      have hx' : '|' ∉ xs := fun hm => hx (List.mem_cons_of_mem _ hm)
      have hy' : '|' ∉ ys := fun hm => hy (List.mem_cons_of_mem _ hm)
      obtain ⟨h1, h2⟩ := ih hx' hy' h.2
      exact ⟨by rw [h.1, h1], h2⟩

lemma fingerprintKey_data (m : FontMetrics) :
    (fingerprintKey m).data =
      m.fontFamily.data ++ '|' ::
        (m.fontSize.data ++ '|' :: (m.fontWeight.data ++ '|' :: m.lineHeight.data)) := by
  simp [fingerprintKey, String.data_append]

lemma insertFontKey_count_pos (fontMap : List (String × ℕ)) (key : String)
    (h : ∀ p ∈ fontMap, 1 ≤ p.2) : ∀ p ∈ insertFontKey fontMap key, 1 ≤ p.2 := by
  unfold insertFontKey
  split_ifs with hx
  · intro p hp
    obtain ⟨q, hq, rfl⟩ := List.mem_map.mp hp
    by_cases hqk : q.1 == key
    · have := h q hq
      simp only [hqk, if_true]
      omega
    · simp only [hqk]
      simpa using h q hq
  · intro p hp
    rcases List.mem_append.mp hp with h' | h'
    · exact h p h'
    · simp only [List.mem_singleton] at h'
      subst h'
      norm_num

lemma collect_count_pos :
    ∀ (elems : List FontMetrics) (fontMap : List (String × ℕ)),
      (∀ p ∈ fontMap, 1 ≤ p.2) →
      ∀ p ∈ elems.foldl (fun fm m => insertFontKey fm (fingerprintKey m)) fontMap,
        1 ≤ p.2 := by
  intro elems
  induction elems with
  | nil => intro fontMap h; simpa using h
  | cons m rest ih =>
    intro fontMap h
    simp only [List.foldl_cons]
    exact ih _ (insertFontKey_count_pos _ _ h)

/-- C7 (amended): elements land in the same `fontMap` bucket exactly when
their `|`-joined fingerprint keys coincide; when the `fontFamily`,
`fontSize` and `fontWeight` values contain no `|`, the key determines the
whole `(fontFamily, fontSize, fontWeight, lineHeight)` tuple, and changing
exactly one of the four fields always changes the key; every bucket the
collector builds has count ≥ 1, so `analyzeIssues` reports a bucket as a
`redundant-style` violation (`count <= redundancyThreshold`, threshold 1)
exactly when its count equals the threshold.  (As originally stated the
claim fails: two tuples differing in two fields can collide when a field
contains the `|` key separator.) -/
theorem fingerprint_bucket_spec :
    (∀ m1 m2 : FontMetrics,
      pipeFree m1.fontFamily → pipeFree m1.fontSize → pipeFree m1.fontWeight →
      pipeFree m2.fontFamily → pipeFree m2.fontSize → pipeFree m2.fontWeight →
      (fingerprintKey m1 = fingerprintKey m2 ↔ m1 = m2)) ∧
    (∀ m1 m2 : FontMetrics, fingerprintKey m1 = fingerprintKey m2 →
      (m1.fontSize = m2.fontSize → m1.fontWeight = m2.fontWeight →
        m1.lineHeight = m2.lineHeight → m1.fontFamily = m2.fontFamily) ∧
      (m1.fontFamily = m2.fontFamily → m1.fontWeight = m2.fontWeight →
        m1.lineHeight = m2.lineHeight → m1.fontSize = m2.fontSize) ∧
      (m1.fontFamily = m2.fontFamily → m1.fontSize = m2.fontSize →
        m1.lineHeight = m2.lineHeight → m1.fontWeight = m2.fontWeight) ∧
      (m1.fontFamily = m2.fontFamily → m1.fontSize = m2.fontSize →
        m1.fontWeight = m2.fontWeight → m1.lineHeight = m2.lineHeight)) ∧
    (∀ (elems : List FontMetrics) (k : String) (c : ℕ),
      (k, c) ∈ collectTypographyData elems →
      1 ≤ c ∧ (redundantStyleReported c = true ↔ c = redundancyThreshold)) := by
  refine ⟨?_, ?_, ?_⟩
  · rintro ⟨ff1, fs1, fw1, lh1⟩ ⟨ff2, fs2, fw2, lh2⟩ h1 h2 h3 h4 h5 h6
    constructor
    · intro h
      have hd := congrArg String.data h
      rw [fingerprintKey_data, fingerprintKey_data] at hd
      dsimp only at hd h1 h2 h3 h4 h5 h6
      obtain ⟨e1, hd⟩ := sep_split h1 h4 hd
      obtain ⟨e2, hd⟩ := sep_split h2 h5 hd
      obtain ⟨e3, e4⟩ := sep_split h3 h6 hd
      rw [String.ext e1, String.ext e2, String.ext e3, String.ext e4]
    · intro h
      rw [h]
  · rintro ⟨ff1, fs1, fw1, lh1⟩ ⟨ff2, fs2, fw2, lh2⟩ h
    have hd := congrArg String.data h
    rw [fingerprintKey_data, fingerprintKey_data] at hd
    dsimp only at hd ⊢
    refine ⟨?_, ?_, ?_, ?_⟩
    · rintro rfl rfl rfl
      exact String.ext (List.append_cancel_right hd)
    · rintro rfl rfl rfl
      have hd' := List.append_cancel_left hd
      simp only [List.cons.injEq, true_and] at hd'
      exact String.ext (List.append_cancel_right hd')
    · rintro rfl rfl rfl
      have hd' := List.append_cancel_left hd
      simp only [List.cons.injEq, true_and] at hd'
      have hd'' := List.append_cancel_left hd'
      simp only [List.cons.injEq, true_and] at hd''
      exact String.ext (List.append_cancel_right hd'')
    · rintro rfl rfl rfl
      have hd' := List.append_cancel_left hd
      simp only [List.cons.injEq, true_and] at hd'
      have hd'' := List.append_cancel_left hd'
      simp only [List.cons.injEq, true_and] at hd''
      have hd3 := List.append_cancel_left hd''
      simp only [List.cons.injEq, true_and] at hd3
      exact String.ext hd3
  · intro elems k c hmem
    have hpos := collect_count_pos elems [] (by simp) (k, c) hmem
    dsimp only at hpos
    refine ⟨hpos, ?_⟩
    unfold redundantStyleReported redundancyThreshold
    simp only [decide_eq_true_eq]
    omega

/-- Witness for C7's amended theorem at one concrete element. -/
theorem fingerprint_bucket_spec_witness :
    (pipeFree fmArial.fontFamily ∧ pipeFree fmArial.fontSize ∧
      pipeFree fmArial.fontWeight) ∧
    (fingerprintKey fmArial = fingerprintKey fmArial ↔ fmArial = fmArial) ∧
    (("Arial|16px|400|24px", 1) ∈ collectTypographyData [fmArial] ∧
      1 ≤ 1 ∧ (redundantStyleReported 1 = true ↔ 1 = redundancyThreshold)) :=
  ⟨⟨by decide, by decide, by decide⟩,
    fingerprint_bucket_spec.1 fmArial fmArial (by decide) (by decide) (by decide)
      (by decide) (by decide) (by decide),
    by decide,
    fingerprint_bucket_spec.2.2 [fmArial] "Arial|16px|400|24px" 1 (by decide)⟩

/-- C7 counterexample: the tuples `("a|b","c","w","l")` and
`("a","b|c","w","l")` differ, yet their `|`-joined keys — and hence their
buckets — coincide: both elements end up in one bucket of count 2, which is
then not reported as a unique (redundant) style. -/
theorem fingerprintKey_collision :
    fmPipeA ≠ fmPipeB ∧
    fingerprintKey fmPipeA = fingerprintKey fmPipeB ∧
    collectTypographyData [fmPipeA, fmPipeB] = [("a|b|c|w|l", 2)] ∧
    redundantStyleReported 2 = false := by
  decide

end TypographyAnalyzer
